import Mathlib

/-!
# A verified model of the simple-basex protocol engine

This file is a shallow embedding, in Lean 4, of the protocol engine of the
`simple-basex` Node.JS client (`index.js`): the incremental decoder for
zero-terminated escaped strings, the two-level buffering scheme
(`buffers` / `stringBuffer`), the pending-read slot (`waiting`), the
command queue, the login handshake (including a concrete MD5
implementation matching Node's `crypto` md5 hex digest), and the
`execute` / `chain` / `checkQueue` control flow.

Modelling conventions:

* JavaScript strings and Node `Buffer`s are both modelled as `List Nat`
  of byte values.  The source decodes accumulated bytes with
  `Buffer.toString('utf8', ...)` and encodes with `buffer.write` /
  `Buffer.byteLength`, i.e. strings travel as their UTF-8 byte
  sequences; the model identifies a string with that byte sequence.
  All concrete strings used here are ASCII, produced by `strBytes`.
* The growable `stringBuffer` plus `stringBufferOffset` pair (capacity
  doubling in `pushToStringBuffer`) is modelled as the list of its first
  `stringBufferOffset` bytes; `pushToStringBuffer` appends a byte.
* JavaScript truthiness is modelled exactly where the source relies on
  it: `readString`'s `if (string)` treats both `null` (no complete
  string) and the empty string as falsy, while `handleData`'s
  `string !== null` treats only `null` as falsy.  In the model the
  decode result is `Option (List Nat)`, `none` standing for `null` and
  `some []` for the empty string.
* The first-class continuations of the source (the closures produced by
  `chain`, `performHandshake` and `execute`) are defunctionalised into
  the inductive type `Cont`; the event-emitter effects (`emit`,
  handler invocations, `socket.write`) become an explicit `Event`
  trace.  A user-supplied handler is identified by a numeric id and its
  invocation is recorded as an event.
* The interpreter `run` is fuel-indexed so that it is structurally
  recursive and kernel-computable; every concrete scenario below uses
  ample fuel.
-/

set_option maxRecDepth 40000

namespace SimpleBasex

/-- Byte sequence of an ASCII string literal (used for all concrete
strings appearing in the scenarios). -/
def strBytes (s : String) : List Nat := s.toList.map Char.toNat

/-! ## The frame decoder

State and operations of `Session.prototype.getStringFromBuffers`,
`getByteFromBuffers` and `pushToStringBuffer` (`index.js` lines 87-149).
-/

/-- The decoding-relevant fields of a `Session`: the string accumulator
(`stringBuffer` up to `stringBufferOffset`), the escape flag `inEscape`,
and the FIFO chain `buffers` of unconsumed input chunks. -/
structure DecoderState where
  stringBuffer : List Nat
  inEscape : Bool
  buffers : List (List Nat)
deriving Repr, DecidableEq

/-- The inner `for` loop of `getStringFromBuffers` over one chunk,
threading the accumulator and the escape flag:

* in escape: push the byte verbatim, clear the flag;
* byte `0xff`: set the flag, push nothing;
* byte `0x00` (unescaped): terminator found — return the accumulated
  string and the unconsumed remainder of the chunk (`Sum.inr`);
* otherwise: push the byte.

`Sum.inl` is the chunk-exhausted case, carrying the updated accumulator
and flag. -/
def scanChunk (acc : List Nat) (esc : Bool) :
    List Nat → (List Nat × Bool) ⊕ (List Nat × List Nat)
  | [] => Sum.inl (acc, esc)
  | b :: rest =>
    if esc then scanChunk (acc ++ [b]) false rest
    else if b = 0xff then scanChunk acc true rest
    else if b = 0x00 then Sum.inr (acc, rest)
    else scanChunk (acc ++ [b]) false rest

/-- The `while (this.buffers.length > 0)` loop of `getStringFromBuffers`:
shift one chunk at a time and scan it.  On a terminator, the decoded
string is yielded, the accumulator offset is reset, and a non-empty
remainder of the current chunk is unshifted back onto the chain
(`index.js` lines 106-113); when the chain runs out, `null` (`none`) is
reported with all consumed bytes retained in the accumulator. -/
def getStringFromBuffersAux (acc : List Nat) (esc : Bool) :
    List (List Nat) → Option (List Nat) × DecoderState
  | [] => (none, ⟨acc, esc, []⟩)
  | chunk :: rest =>
    match scanChunk acc esc chunk with
    | Sum.inl (acc', esc') => getStringFromBuffersAux acc' esc' rest
    | Sum.inr (s, rem) =>
      (some s, ⟨[], false, if rem = [] then rest else rem :: rest⟩)

/-- `Session.prototype.getStringFromBuffers` (`index.js` lines 96-120). -/
def getStringFromBuffers (d : DecoderState) : Option (List Nat) × DecoderState :=
  getStringFromBuffersAux d.stringBuffer d.inEscape d.buffers

/-- `Session.prototype.getByteFromBuffers` (`index.js` lines 141-149):
take the first byte of the first chunk; drop the chunk if that byte was
its last, else replace it by its suffix.  The source indexes
`buffers[0][0]` unguarded; the `none` cases correspond to states the
source never reaches (callers guard on a non-empty chain, and chunks on
the chain are never empty). -/
def getByteFromBuffers : List (List Nat) → Option (Nat × List (List Nat))
  | [] => none
  | [] :: _ => none
  | (b :: rest) :: chunks =>
    some (b, if rest = [] then chunks else rest :: chunks)

/-! ## Wire encoding

The escaped, zero-terminated encoding of the BaseX wire format
(§ server protocol): `0x00`/`0xff` inside a string are preceded by the
escape byte `0xff`, and the string ends with an unescaped `0x00`.  The
*decoder* above undoes exactly this encoding.  Note the client-side
writer is `writeStringsEncode` below, which does *not* apply it. -/

/-- Escape one byte for the wire: `0x00` and `0xff` are preceded by
`0xff`. -/
def escapeByte (b : Nat) : List Nat :=
  if b = 0x00 ∨ b = 0xff then [0xff, b] else [b]

/-- The escaped, zero-terminated wire encoding of a string (as bytes). -/
def encodeString (s : List Nat) : List Nat := s.flatMap escapeByte ++ [0]

/-- `Session.prototype.writeStrings` (`index.js` lines 67-85), bytes
actually placed in the output buffer: for each argument string its
UTF-8 bytes (`buffer.write`) followed by a single `0` byte.  No
escaping of `0x00`/`0xff` is performed anywhere in this function. -/
def writeStringsEncode (args : List (List Nat)) : List Nat :=
  args.flatMap (fun s => s ++ [0])

/-! ## Decoder-level data arrival

`Session.prototype.handleData` (`index.js` lines 128-139) restricted to
its decoding effect when a string read is pending: push the chunk onto
the chain, re-attempt `getStringFromBuffers`, and yield the string iff
the result is not `null` (the `string !== null` test — the empty string
*is* yielded here). -/

/-- One `data` event while a `readString` is pending: the pushed chunk
followed by a decode attempt.  First component: the string handed to
`popAndInvokeHandler`, if any. -/
def handleDataStringPending (d : DecoderState) (data : List Nat) :
    Option (List Nat) × DecoderState :=
  getStringFromBuffers ⟨d.stringBuffer, d.inEscape, d.buffers ++ [data]⟩

/-- Deliver a byte list to the decoder one byte per `data` event,
stopping as soon as a string is yielded (mirrors a pending `readString`
being satisfied across maximally fragmented arrivals). -/
def feedOneByOne (d : DecoderState) : List Nat → Option (List Nat) × DecoderState
  | [] => (none, d)
  | b :: rest =>
    match handleDataStringPending d [b] with
    | (some s, d') => (some s, d')
    | (none, d') => feedOneByOne d' rest

/-! ## MD5

`md5` in the source (`index.js` lines 38-40) is
`crypto.createHash('md5').update(str).digest("hex")`.  The model
implements MD5 (RFC 1321) concretely over byte lists, with 32-bit words
as `Nat` reduced modulo `2^32`, and returns the lowercase hex digest as
ASCII bytes — the same value Node's `crypto` produces.  It is checked
against published test vectors below (`md5hex_vectors`). -/

/-- `2^32`, the word modulus of MD5. -/
def M32 : Nat := 4294967296

/-- Bitwise complement on 32-bit words represented as `Nat`. -/
def mnot (x : Nat) : Nat := 4294967295 - x

/-- Left rotation of a 32-bit word. -/
def rotl (x s : Nat) : Nat :=
  ((x <<< s) % M32) ||| (x >>> (32 - s))

/-- The 64 MD5 sine-derived round constants. -/
def kTable : List Nat := [
  0xd76aa478, 0xe8c7b756, 0x242070db, 0xc1bdceee,
  0xf57c0faf, 0x4787c62a, 0xa8304613, 0xfd469501,
  0x698098d8, 0x8b44f7af, 0xffff5bb1, 0x895cd7be,
  0x6b901122, 0xfd987193, 0xa679438e, 0x49b40821,
  0xf61e2562, 0xc040b340, 0x265e5a51, 0xe9b6c7aa,
  0xd62f105d, 0x02441453, 0xd8a1e681, 0xe7d3fbc8,
  0x21e1cde6, 0xc33707d6, 0xf4d50d87, 0x455a14ed,
  0xa9e3e905, 0xfcefa3f8, 0x676f02d9, 0x8d2a4c8a,
  0xfffa3942, 0x8771f681, 0x6d9d6122, 0xfde5380c,
  0xa4beea44, 0x4bdecfa9, 0xf6bb4b60, 0xbebfbc70,
  0x289b7ec6, 0xeaa127fa, 0xd4ef3085, 0x04881d05,
  0xd9d4d039, 0xe6db99e5, 0x1fa27cf8, 0xc4ac5665,
  0xf4292244, 0x432aff97, 0xab9423a7, 0xfc93a039,
  0x655b59c3, 0x8f0ccc92, 0xffeff47d, 0x85845dd1,
  0x6fa87e4f, 0xfe2ce6e0, 0xa3014314, 0x4e0811a1,
  0xf7537e82, 0xbd3af235, 0x2ad7d2bb, 0xeb86d391 ]

/-- The 64 per-round left-rotation amounts. -/
def sTable : List Nat := [
  7, 12, 17, 22, 7, 12, 17, 22, 7, 12, 17, 22, 7, 12, 17, 22,
  5,  9, 14, 20, 5,  9, 14, 20, 5,  9, 14, 20, 5,  9, 14, 20,
  4, 11, 16, 23, 4, 11, 16, 23, 4, 11, 16, 23, 4, 11, 16, 23,
  6, 10, 15, 21, 6, 10, 15, 21, 6, 10, 15, 21, 6, 10, 15, 21 ]

/-- MD5 padding: `0x80`, zeros to 56 mod 64, then the bit length as
eight little-endian bytes. -/
def padMessage (msg : List Nat) : List Nat :=
  let len := msg.length
  let bitLen := (len * 8) % (2 ^ 64)
  let padZeros := (119 - len % 64) % 64
  msg ++ [0x80] ++ List.replicate padZeros 0 ++
    (List.range 8).map (fun i => (bitLen >>> (8 * i)) % 256)

/-- Little-endian 32-bit words of a byte list (length a multiple of 4). -/
def toWords : List Nat → List Nat
  | b0 :: b1 :: b2 :: b3 :: rest =>
      (b0 + b1 * 256 + b2 * 65536 + b3 * 16777216) :: toWords rest
  | _ => []

/-- Round function F (rounds 0-15). -/
def mixF (b c d : Nat) : Nat := (b &&& c) ||| (mnot b &&& d)

/-- Round function G (rounds 16-31). -/
def mixG (b c d : Nat) : Nat := (d &&& b) ||| (mnot d &&& c)

/-- Round function H (rounds 32-47). -/
def mixH (b c d : Nat) : Nat := b ^^^ c ^^^ d

/-- Round function I (rounds 48-63). -/
def mixI (b c d : Nat) : Nat := c ^^^ (b ||| mnot d)

/-- Message-word schedule index for round `i`. -/
def msgIndex (i : Nat) : Nat :=
  if i < 16 then i
  else if i < 32 then (5 * i + 1) % 16
  else if i < 48 then (3 * i + 5) % 16
  else (7 * i) % 16

/-- Round-function selector. -/
def mixFun (i b c d : Nat) : Nat :=
  if i < 16 then mixF b c d
  else if i < 32 then mixG b c d
  else if i < 48 then mixH b c d
  else mixI b c d

/-- One MD5 round on state `(a, b, c, d)` with message words `w`. -/
def md5Round (w : List Nat) (st : Nat × Nat × Nat × Nat) (i : Nat) :
    Nat × Nat × Nat × Nat :=
  let (a, b, c, d) := st
  let f := (mixFun i b c d + a + kTable.getD i 0 + w.getD (msgIndex i) 0) % M32
  (d, (b + rotl f (sTable.getD i 0)) % M32, b, c)

/-- One 64-byte block: 64 rounds, then the feed-forward addition. -/
def processBlock (st : Nat × Nat × Nat × Nat) (w : List Nat) :
    Nat × Nat × Nat × Nat :=
  let r := (List.range 64).foldl (md5Round w) st
  ((st.1 + r.1) % M32, (st.2.1 + r.2.1) % M32,
   (st.2.2.1 + r.2.2.1) % M32, (st.2.2.2 + r.2.2.2) % M32)

/-- Process `n` consecutive 64-byte blocks (structural in `n`, so the
kernel can evaluate it). -/
def processBlocksAux (st : Nat × Nat × Nat × Nat) :
    Nat → List Nat → Nat × Nat × Nat × Nat
  | 0, _ => st
  | n + 1, bytes =>
      processBlocksAux (processBlock st (toWords (bytes.take 64))) n (bytes.drop 64)

/-- Process a padded message (whose length is a multiple of 64). -/
def processBlocks (st : Nat × Nat × Nat × Nat) (bytes : List Nat) :
    Nat × Nat × Nat × Nat :=
  processBlocksAux st (bytes.length / 64) bytes

/-- Little-endian bytes of a 32-bit word. -/
def wordLEBytes (x : Nat) : List Nat :=
  [x % 256, (x >>> 8) % 256, (x >>> 16) % 256, (x >>> 24) % 256]

/-- ASCII code of a lowercase hex digit. -/
def hexDigit (n : Nat) : Nat := if n < 10 then 48 + n else 87 + n

/-- Two lowercase hex ASCII codes of a byte. -/
def byteHex (b : Nat) : List Nat := [hexDigit (b / 16), hexDigit (b % 16)]

/-- Raw 16-byte MD5 digest of a byte-list message. -/
def md5Bytes (msg : List Nat) : List Nat :=
  let r := processBlocks (0x67452301, 0xefcdab89, 0x98badcfe, 0x10325476)
      (padMessage msg)
  wordLEBytes r.1 ++ wordLEBytes r.2.1 ++ wordLEBytes r.2.2.1 ++ wordLEBytes r.2.2.2

/-- `md5` of the source (`index.js` lines 38-40): the lowercase hex MD5
digest, as ASCII bytes. -/
def md5hex (msg : List Nat) : List Nat :=
  (md5Bytes msg).flatMap byteHex

/-! ## The session state machine

The control flow of `Session` — `performHandshake`, `getLoginStatus`,
`chain`, `checkQueue`, `execute` and the handler invocations
(`index.js` lines 42-233) — is defunctionalised.  Each first-class
continuation the source stores in `this.waiting` or builds inside
`chain` corresponds to one `Cont` constructor; observable effects
(`socket.write`, `emit`, calling a user handler) are recorded as
`Event`s.  The single-threaded, event-driven execution of Node is
modelled by a fuel-indexed interpreter: one external stimulus
(`connect`, `data`, `end`) runs to completion, producing a new session
state and an event trace. -/

/-- A command handler: the caller-supplied callback (identified by a
numeric id, since its body is outside the engine), or the absent case
which the source replaces by `Session.prototype.defaultHandler`
(`index.js` line 214). -/
inductive Handler where
  | default
  | user (id : Nat)
deriving Repr, DecidableEq

/-- The kind tag of the pending read slot: the source stores
`this.readString` or `this.readByte` as `waiting[0]` and compares with
`===`. -/
inductive ReadKind where
  | string
  | byte
deriving Repr, DecidableEq

/-- Defunctionalised continuations (`waiting[1]` / the closures of
`chain`):

* `handshakeNonce` — the `readString` callback of `performHandshake`;
* `loginStatus` — the `readByte` callback of `getLoginStatus`;
* `execResult q h` — `chain`'s `maybeInvokeNext` awaiting the result
  string of command `q`;
* `execInfo q h r` — awaiting the info string, result `r` collected;
* `execCode q h r i` — awaiting the status byte. -/
inductive Cont where
  | handshakeNonce
  | loginStatus
  | execResult (query : List Nat) (h : Handler)
  | execInfo (query : List Nat) (h : Handler) (result : List Nat)
  | execCode (query : List Nat) (h : Handler) (result info : List Nat)
deriving Repr, DecidableEq

/-- A value delivered to a continuation: a decoded string or a raw
byte. -/
inductive Delivered where
  | str (s : List Nat)
  | byte (b : Nat)
deriving Repr, DecidableEq

/-- Observable effects of the engine:

* `wrote ss` — `writeStrings` wrote the strings `ss` (each
  zero-terminated) to the socket in one buffer;
* `handlerCalled id r i` — a user handler was invoked as
  `handler(result, info)`;
* `emitResult r i c` — `defaultHandler` emitted a `result` event with
  `{result, info, code}`; `c : Option Nat` because `invokeHandler`
  passes only two arguments, so `code` is `undefined` (`none`) there;
* `emitError m` — an `error` event with message bytes `m`;
* `emitLoggedIn` — the `loggedIn` event. -/
inductive Event where
  | wrote (strings : List (List Nat))
  | handlerCalled (id : Nat) (result info : List Nat)
  | emitResult (result info : List Nat) (code : Option Nat)
  | emitError (msg : List Nat)
  | emitLoggedIn
deriving Repr, DecidableEq

/-- The `Session` object: connection options (`user`, `password`), the
decoder fields (`stringBuffer`/`inEscape`/`buffers` as `dec`), the
pending-read slot `waiting`, the `busy` flag and the command `queue`.
A queue entry `(q, h)` is the thunk
`arguments.callee.bind(this, query, handler)` of `index.js` line 216;
`queue.unshift` prepends it, `queue.pop` removes from the back. -/
structure Session where
  user : List Nat
  password : List Nat
  dec : DecoderState
  waiting : Option (ReadKind × Cont)
  busy : Bool
  queue : List (List Nat × Handler)
deriving Repr, DecidableEq

/-- The message of the `Error` constructed on command failure
(`index.js` line 226). -/
def errorMessage (query info : List Nat) : List Nat :=
  strBytes "BaseX query failed\nquery: " ++ query ++
    strBytes "\nmessage: " ++ info

/-- The message of the `Error` on login failure (`index.js` line 187). -/
def authFailedMessage : List Nat := strBytes "authorization failed"

/-- Internal actions of the engine, the call targets of the
interpreter: issuing `execute`, invoking a stored continuation with a
delivered value, the two read primitives, and `checkQueue`. -/
inductive Act where
  | execute (query : List Nat) (h : Handler)
  | invoke (k : Cont) (v : Delivered)
  | readString (k : Cont)
  | readByte (k : Cont)
  | checkQueue
deriving Repr, DecidableEq

/-- Prepend an event to an interpreter result. -/
def withEvent (e : Event) (p : Session × List Event) : Session × List Event :=
  (p.1, e :: p.2)

/-- Append an event to an interpreter result. -/
def withLastEvent (e : Event) (p : Session × List Event) : Session × List Event :=
  (p.1, p.2 ++ [e])

/-- The effect of `invokeHandler` calling the handler on success
(`index.js` line 223, `handler.call(this, result, info)`): the default
handler emits a `result` event whose `code` field is `none` (the third
argument is not passed); a user handler is invoked with
`(result, info)`. -/
def handlerEvent (h : Handler) (r i : List Nat) : Event :=
  match h with
  | .default => .emitResult r i none
  | .user id => .handlerCalled id r i

/-- The engine interpreter.  Each branch is a direct transcription of
the corresponding source function:

* `execute` (`index.js` lines 213-233): busy → `queue.unshift(thunk)`
  and return; else set `busy`, `writeStrings(query, cb)` where the
  write callback starts `chain(invokeHandler, readString, readString,
  readByte)`;
* `checkQueue` (lines 174-179): clear `busy`; if the queue is
  non-empty, `queue.pop()` (remove from the *back*) and run the thunk;
* `readString` (lines 159-166): attempt a decode; invoke the handler
  only `if (string)` — the empty string is falsy and registers the
  pending slot instead; otherwise register the slot;
* `readByte` (lines 151-157): deliver a byte if the chain is
  non-empty, else register the slot (`getByteFromBuffers` cannot
  return `none` then, since chunks on the chain are non-empty);
* `invoke` covers `performHandshake`'s nonce callback (line 170:
  write `user` then `md5(md5(password) + nonce)`, then
  `getLoginStatus`), `getLoginStatus`'s byte callback (lines 182-189),
  the `maybeInvokeNext` steps of `chain` (lines 197-204) and
  `invokeHandler` (lines 221-228): on status 0 call the handler with
  `(result, info)` then `checkQueue`; on non-zero status emit the
  error and leave `busy` set, without touching the queue.

A kind-mismatched delivery (e.g. a string to a byte continuation)
cannot arise and leaves the state unchanged.  `socket.write`'s
completion callback is run synchronously after recording the `wrote`
event, matching the event-serial execution model. -/
def run : Nat → Session → Act → Session × List Event
  | 0, st, _ => (st, [])
  | fuel + 1, st, act =>
    match act with
    | .execute q h =>
      if st.busy then
        ({ st with queue := (q, h) :: st.queue }, [])
      else
        withEvent (.wrote [q])
          (run fuel { st with busy := true } (.readString (.execResult q h)))
    | .checkQueue =>
      let st' := { st with busy := false }
      match st'.queue.getLast? with
      | none => (st', [])
      | some (q, h) =>
        run fuel { st' with queue := st'.queue.dropLast } (.execute q h)
    | .readString k =>
      let r := getStringFromBuffers st.dec
      let st' := { st with dec := r.2 }
      match r.1 with
      | some s =>
        if s = [] then ({ st' with waiting := some (.string, k) }, [])
        else run fuel st' (.invoke k (.str s))
      | none => ({ st' with waiting := some (.string, k) }, [])
    | .readByte k =>
      match st.dec.buffers with
      | [] => ({ st with waiting := some (.byte, k) }, [])
      | _ :: _ =>
        match getByteFromBuffers st.dec.buffers with
        | some (b, bufs) =>
          run fuel { st with dec := { st.dec with buffers := bufs } }
            (.invoke k (.byte b))
        | none => ({ st with waiting := some (.byte, k) }, [])
    | .invoke k v =>
      match k, v with
      | .handshakeNonce, .str nonce =>
        withEvent (.wrote [st.user, md5hex (md5hex st.password ++ nonce)])
          (run fuel st (.readByte .loginStatus))
      | .loginStatus, .byte b =>
        if b = 0 then
          withLastEvent .emitLoggedIn (run fuel st .checkQueue)
        else
          (st, [.emitError authFailedMessage])
      | .execResult q h, .str r =>
        run fuel st (.readString (.execInfo q h r))
      | .execInfo q h r, .str i =>
        run fuel st (.readByte (.execCode q h r i))
      | .execCode q h r i, .byte c =>
        if c = 0 then
          withEvent (handlerEvent h r i) (run fuel st .checkQueue)
        else
          (st, [.emitError (errorMessage q i)])
      | _, _ => (st, [])

/-- `Session.prototype.handleData` (`index.js` lines 128-139): push the
chunk, then, if a read is pending, re-attempt it; a decoded string is
delivered when it is `!== null` (so the empty string *is* delivered
here), a byte is delivered unconditionally.  `popAndInvokeHandler`
(lines 122-126) clears `waiting` before invoking the stored
continuation. -/
def dataEvent (fuel : Nat) (st : Session) (data : List Nat) :
    Session × List Event :=
  let st := { st with dec := { st.dec with buffers := st.dec.buffers ++ [data] } }
  match st.waiting with
  | some (.string, k) =>
    let r := getStringFromBuffers st.dec
    let st' := { st with dec := r.2 }
    match r.1 with
    | some s => run fuel { st' with waiting := none } (.invoke k (.str s))
    | none => (st', [])
  | some (.byte, k) =>
    match getByteFromBuffers st.dec.buffers with
    | some (b, bufs) =>
      run fuel { st with dec := { st.dec with buffers := bufs }, waiting := none }
        (.invoke k (.byte b))
    | none => (st, [])
  | none => (st, [])

/-- The socket `connect` listener (`index.js` line 60):
`performHandshake` issues `readString` with the nonce continuation. -/
def connectEvent (fuel : Nat) (st : Session) : Session × List Event :=
  run fuel st (.readString .handshakeNonce)

/-- The socket `end` listener (`index.js` line 62): the session is
marked busy; nothing else happens. -/
def endEvent (st : Session) : Session :=
  { st with busy := true }

/-- A fresh session right after construction (`index.js` lines 42-63):
empty accumulator and chain, no pending read, `busy = true`, empty
queue. -/
def initialSession (user password : List Nat) : Session :=
  { user := user, password := password,
    dec := ⟨[], false, []⟩, waiting := none, busy := true, queue := [] }

/-! ## Scenario-building definitions -/

/-- A session whose in-flight command `q` with handler `h` is awaiting
its full `(result, info, status)` reply: the command bytes have been
written, `chain`'s first `readString` found no data and registered the
pending slot; `queue` holds the commands deferred meanwhile. -/
def awaitingReply (u pw q : List Nat) (h : Handler) (queue : List (List Nat × Handler)) :
    Session :=
  { user := u, password := pw, dec := ⟨[], false, []⟩,
    waiting := some (.string, .execResult q h), busy := true, queue := queue }

/-- The wire bytes of a full command reply: escaped result string,
escaped info string, status byte. -/
def wireReply (r i : List Nat) (c : Nat) : List Nat :=
  encodeString r ++ encodeString i ++ [c]

/-- A session drained of all work: nothing buffered, no pending read,
not busy, empty queue. -/
def idleSession (u pw : List Nat) : Session :=
  { user := u, password := pw, dec := ⟨[], false, []⟩,
    waiting := none, busy := false, queue := [] }

/-- Issue a list of `execute` calls one after another (each with the
given fuel), concatenating the event traces. -/
def issueAll (fuel : Nat) : Session → List (List Nat × Handler) → Session × List Event
  | st, [] => (st, [])
  | st, (q, h) :: rest =>
    let p := run fuel st (.execute q h)
    let p' := issueAll fuel p.1 rest
    (p'.1, p.2 ++ p'.2)

/-- Deliver a list of `data` events one after another, concatenating
the event traces. -/
def drive (fuel : Nat) : Session → List (List Nat) → Session × List Event
  | st, [] => (st, [])
  | st, d :: ds =>
    let p := dataEvent fuel st d
    let p' := drive fuel p.1 ds
    (p'.1, p.2 ++ p'.2)

/-- The fixed successful server reply used in the queue-drain scenario:
result `"r"`, info `"i"`, status `0` (both strings non-empty, so the
reply travels the normal path of `readString`). -/
def fifoReply : List Nat := wireReply (strBytes "r") (strBytes "i") 0

/-- The expected event trace of a full queue drain: the in-flight
command's handler fires, then the next queued command is written, whose
handler fires on its reply, and so on — pairwise interleaved in
first-issued order, one command at a time. -/
def expectedDrain : (List Nat × Handler) → List (List Nat × Handler) → List Event
  | (_, h), [] => [handlerEvent h (strBytes "r") (strBytes "i")]
  | (_, h), (q', h') :: rest =>
    handlerEvent h (strBytes "r") (strBytes "i") :: .wrote [q'] ::
      expectedDrain (q', h') rest

/-- A busy session with current command `cur` awaiting its reply and
the commands `cmds` queued behind it, in issue order (`queue.unshift`
prepends, so the queue holds their reverse). -/
def inFlight (u pw : List Nat) (cur : List Nat × Handler)
    (cmds : List (List Nat × Handler)) : Session :=
  awaitingReply u pw cur.1 cur.2 cmds.reverse

/-- Claim C1's concrete command (`test.js` line 3). -/
def c1Query : List Nat := strBytes "xquery <foo/>"

/-- Claim C1's starting state: `execute 'xquery <foo/>'` has been sent
and the session awaits the reply. -/
def c1Session : Session :=
  awaitingReply (strBytes "admin") (strBytes "admin") c1Query (.user 0) []

/-- Claim C1's server reply, a single fragment:
`"<foo/>\0\0\x00"` — result `"<foo/>"`, empty info, status `0`. -/
def c1Reply : List Nat := strBytes "<foo/>" ++ [0, 0, 0]

/-! ## Theorems settling the specification claims -/

/-- The MD5 implementation agrees with the RFC 1321 test vectors and
with `crypto`'s digest of `"admin"`. -/
theorem md5hex_vectors :
    md5hex [] = strBytes "d41d8cd98f00b204e9800998ecf8427e" ∧
    md5hex (strBytes "abc") = strBytes "900150983cd24fb0d6963f7d28e17f72" ∧
    md5hex (strBytes "admin") = strBytes "21232f297a57a5a743894a0e4a801fc3" := by
  refine ⟨by decide, by decide, by decide⟩

/-- Scanning an escaped encoding followed by an unescaped terminator
consumes exactly the encoding, appends the decoded bytes to the
accumulator, and returns the remainder after the terminator. -/
theorem scanChunk_flatMap_escape (s : List Nat) : ∀ acc rest : List Nat,
    scanChunk acc false (s.flatMap escapeByte ++ 0 :: rest) =
      Sum.inr (acc ++ s, rest) := by
  induction s with
  | nil =>
    intro acc rest
    simp [scanChunk]
  | cons b s ih =>
    intro acc rest
    by_cases hb : b = 0 ∨ b = 255
    · have hesc : escapeByte b = [255, b] := by
        rcases hb with rfl | rfl <;> rfl
      rw [List.flatMap_cons, hesc]
      simp only [List.cons_append, List.nil_append, List.append_assoc]
      rw [show scanChunk acc false (255 :: b :: (s.flatMap escapeByte ++ 0 :: rest)) =
            scanChunk (acc ++ [b]) false (s.flatMap escapeByte ++ 0 :: rest) from rfl]
      rw [ih (acc ++ [b]) rest]
      simp
    · push_neg at hb
      have hesc : escapeByte b = [b] := by
        simp [escapeByte, hb.1, hb.2]
      rw [List.flatMap_cons, hesc]
      simp only [List.cons_append, List.nil_append, List.append_assoc]
      rw [show scanChunk acc false (b :: (s.flatMap escapeByte ++ 0 :: rest)) =
            scanChunk (acc ++ [b]) false (s.flatMap escapeByte ++ 0 :: rest) by
          simp [scanChunk, hb.1, hb.2]]
      rw [ih (acc ++ [b]) rest]
      simp

/-- An `execute` on a busy session only prepends the deferred thunk to
the queue; nothing is written and nothing is emitted. -/
theorem run_execute_busy (n : Nat) (st : Session) (q : List Nat) (h : Handler)
    (hb : st.busy = true) :
    run (n + 1) st (.execute q h) = ({ st with queue := (q, h) :: st.queue }, []) := by
  simp [run, hb]

/-- Issuing any list of `execute` calls on a busy session enqueues
exactly those thunks (in `unshift` order, i.e. the reverse of issue
order, in front of the existing queue) and produces no events. -/
theorem issueAll_busy (cmds : List (List Nat × Handler)) : ∀ (n : Nat) (st : Session),
    st.busy = true →
    issueAll (n + 1) st cmds = ({ st with queue := cmds.reverse ++ st.queue }, []) := by
  induction cmds with
  | nil => intro n st _; simp [issueAll]
  | cons c rest ih =>
    intro n st hb
    obtain ⟨q, h⟩ := c
    rw [issueAll, run_execute_busy n st q h hb]
    rw [ih n { st with queue := (q, h) :: st.queue } hb]
    simp [List.append_assoc]

/-- One successful reply to the in-flight command with an empty queue:
the handler fires and `checkQueue` finds nothing to run. -/
theorem fifo_step_nil (u pw q : List Nat) (h : Handler) :
    dataEvent 12 (inFlight u pw (q, h) []) fifoReply =
      (idleSession u pw, [handlerEvent h (strBytes "r") (strBytes "i")]) := by
  have hfifo : fifoReply = [114, 0, 105, 0, 0] := by decide
  have hr : strBytes "r" = [114] := by decide
  have hi : strBytes "i" = [105] := by decide
  rw [hfifo, hr, hi]
  simp [dataEvent, inFlight, awaitingReply, idleSession, getStringFromBuffers,
    getStringFromBuffersAux, scanChunk, run, getByteFromBuffers, withEvent]

/-- One successful reply to the in-flight command with a non-empty
queue: the handler fires, then `checkQueue` pops exactly the *back* of
the queue — the earliest-issued deferred command — which is written to
the socket and left awaiting its own reply. -/
theorem fifo_step_cons (u pw q : List Nat) (h : Handler) (q' : List Nat)
    (h' : Handler) (rest : List (List Nat × Handler)) :
    dataEvent 12 (inFlight u pw (q, h) ((q', h') :: rest)) fifoReply =
      (inFlight u pw (q', h') rest,
        [handlerEvent h (strBytes "r") (strBytes "i"), .wrote [q']]) := by
  have hfifo : fifoReply = [114, 0, 105, 0, 0] := by decide
  have hr : strBytes "r" = [114] := by decide
  have hi : strBytes "i" = [105] := by decide
  rw [hfifo, hr, hi]
  simp [dataEvent, inFlight, awaitingReply, getStringFromBuffers,
    getStringFromBuffersAux, scanChunk, run, getByteFromBuffers, withEvent,
    List.reverse_cons, List.getLast?_concat, List.dropLast_concat]

/-- Feeding one successful reply per pending command drains the whole
queue, producing exactly the expected first-in-first-out trace. -/
theorem drain_all (cmds : List (List Nat × Handler)) :
    ∀ (cur : List Nat × Handler) (u pw : List Nat),
    drive 12 (inFlight u pw cur cmds) (List.replicate (cmds.length + 1) fifoReply) =
      (idleSession u pw, expectedDrain cur cmds) := by
  induction cmds with
  | nil =>
    intro cur u pw
    obtain ⟨q, h⟩ := cur
    rw [show List.replicate (List.length [] + 1) fifoReply = [fifoReply] from rfl]
    rw [drive, fifo_step_nil u pw q h]
    simp [drive, expectedDrain]
  | cons c rest ih =>
    intro cur u pw
    obtain ⟨q, h⟩ := cur
    obtain ⟨q', h'⟩ := c
    rw [show List.replicate (List.length ((q', h') :: rest) + 1) fifoReply =
          fifoReply :: List.replicate (rest.length + 1) fifoReply by
        simp [List.replicate]]
    rw [drive, fifo_step_cons u pw q h q' h' rest]
    rw [show (inFlight u pw (q', h') rest,
          [handlerEvent h (strBytes "r") (strBytes "i"), .wrote [q']]).1 =
        inFlight u pw (q', h') rest from rfl]
    rw [ih (q', h') u pw]
    simp [expectedDrain]

/-- Claim C2: first-in-first-out command scheduling.  First conjunct:
issuing any list of `execute` calls while the session is busy enqueues
exactly those thunks (the queue grows by `cmds.reverse`, i.e. one
`unshift` per call) and neither writes nor emits anything.  Second
conjunct: from a busy session with current command `cur` and queue
built from `cmds`, one successful reply per command drains the queue
producing the trace `expectedDrain cur cmds` — handler of `cur`, write
of the first queued command, its handler, write of the second, … — so
the queued commands run strictly in issue order, one at a time, each
dequeued (from the back, at most one per busy-to-free transition)
only after the previous command's success path completed. -/
theorem command_queue_fifo :
    (∀ (n : Nat) (st : Session), st.busy = true →
      ∀ cmds : List (List Nat × Handler),
        issueAll (n + 1) st cmds =
          ({ st with queue := cmds.reverse ++ st.queue }, [])) ∧
    (∀ (cmds : List (List Nat × Handler)) (cur : List Nat × Handler)
        (u pw : List Nat),
      drive 12 (inFlight u pw cur cmds)
          (List.replicate (cmds.length + 1) fifoReply) =
        (idleSession u pw, expectedDrain cur cmds)) := by
  exact ⟨fun n st hb cmds => issueAll_busy cmds n st hb,
    fun cmds cur u pw => drain_all cmds cur u pw⟩

/-- Claim C2 witness: two commands issued on a busy session are both
enqueued in `unshift` order with no output, and the drain of a
two-command queue behind an in-flight command runs them in issue
order. -/
theorem command_queue_fifo_witness :
    issueAll 1 c1Session [(strBytes "a", .user 1), (strBytes "b", .user 2)] =
      ({ c1Session with
          queue := [(strBytes "b", .user 2), (strBytes "a", .user 1)] }, []) ∧
    drive 12 (inFlight (strBytes "admin") (strBytes "admin") (c1Query, .user 0)
        [(strBytes "a", .user 1), (strBytes "b", .user 2)])
        (List.replicate 3 fifoReply) =
      (idleSession (strBytes "admin") (strBytes "admin"),
        [handlerEvent (.user 0) (strBytes "r") (strBytes "i"),
         .wrote [strBytes "a"],
         handlerEvent (.user 1) (strBytes "r") (strBytes "i"),
         .wrote [strBytes "b"],
         handlerEvent (.user 2) (strBytes "r") (strBytes "i")]) := by
  constructor
  · have h := command_queue_fifo.1 0 c1Session rfl
      [(strBytes "a", .user 1), (strBytes "b", .user 2)]
    simpa using h
  · have h := command_queue_fifo.2
      [(strBytes "a", .user 1), (strBytes "b", .user 2)]
      (c1Query, .user 0) (strBytes "admin") (strBytes "admin")
    simpa [expectedDrain] using h

/-- Claim C4 counterexample: the claim promises an error notification
for *every* reply with a non-zero status byte, but when such a reply
carries an *empty* info string in one fragment, the `if (string)`
truthiness test in `readString` drops the synchronously decoded empty
info, re-registers the pending slot, and the status byte — here `1` —
is never read: the event trace is empty, so no error notification is
raised at all (the session is merely wedged: still busy, handler not
invoked, queue untouched, status byte stranded on the chain). -/
theorem command_failure_empty_info_no_error :
    dataEvent 12 (awaitingReply (strBytes "admin") (strBytes "admin")
        (strBytes "q") (.user 5) [(strBytes "z", .default)])
        (wireReply (strBytes "res") [] 1) =
      ({ awaitingReply (strBytes "admin") (strBytes "admin")
          (strBytes "q") (.user 5) [(strBytes "z", .default)] with
          dec := ⟨[], false, [[1]]⟩,
          waiting := some (.string,
            .execInfo (strBytes "q") (.user 5) (strBytes "res")) },
        []) := by
  decide

/-- Claim C4, amended: when a command's server reply has a nonzero
status byte *and a non-empty info string*, the session emits exactly
one `error` event whose message embeds both the original command text
and the server's info string (the two trailing conjuncts exhibit them
as contiguous segments of the message), invokes no handler, writes
nothing, leaves `busy = true`, and leaves the queue exactly as it was —
no thunk is dequeued or run.  (The non-empty-info proviso is forced by
`command_failure_empty_info_no_error`: an empty info string falls into
the `readString` truthiness bug of claim C1 and no notification is
raised at all.) -/
theorem command_failure_halts_queue (u pw q : List Nat) (h : Handler)
    (r i : List Nat) (c : Nat) (queue : List (List Nat × Handler))
    (hi : i ≠ []) (hc : c ≠ 0) :
    dataEvent 12 (awaitingReply u pw q h queue) (wireReply r i c) =
      ({ awaitingReply u pw q h queue with waiting := none },
        [.emitError (errorMessage q i)]) ∧
    q <:+: errorMessage q i ∧ i <:+: errorMessage q i := by
  refine ⟨?_, ?_, ?_⟩
  · have hw : wireReply r i c =
        r.flatMap escapeByte ++ 0 :: (i.flatMap escapeByte ++ 0 :: [c]) := by
      simp [wireReply, encodeString, List.append_assoc]
    rw [hw]
    simp [dataEvent, awaitingReply, getStringFromBuffers, getStringFromBuffersAux,
      scanChunk_flatMap_escape, run, getByteFromBuffers, hi, hc]
  · exact ⟨strBytes "BaseX query failed\nquery: ", strBytes "\nmessage: " ++ i,
      by simp [errorMessage, List.append_assoc]⟩
  · exact ⟨strBytes "BaseX query failed\nquery: " ++ q ++ strBytes "\nmessage: ", [],
      by simp [errorMessage, List.append_assoc]⟩

/-- Claim C4 witness: a concrete failed command (status byte `1`) with
a non-empty queue behind it — only the error event is emitted and the
queued thunk stays put. -/
theorem command_failure_halts_queue_witness :
    dataEvent 12 (awaitingReply (strBytes "admin") (strBytes "admin")
        (strBytes "q") (.user 5) [(strBytes "z", .default)])
        (wireReply (strBytes "res") (strBytes "oops") 1) =
      ({ awaitingReply (strBytes "admin") (strBytes "admin")
          (strBytes "q") (.user 5) [(strBytes "z", .default)] with waiting := none },
        [.emitError (errorMessage (strBytes "q") (strBytes "oops"))]) ∧
    strBytes "q" <:+: errorMessage (strBytes "q") (strBytes "oops") ∧
    strBytes "oops" <:+: errorMessage (strBytes "q") (strBytes "oops") :=
  command_failure_halts_queue (strBytes "admin") (strBytes "admin")
    (strBytes "q") (.user 5) (strBytes "res") (strBytes "oops") 1
    [(strBytes "z", .default)] (by decide) (by decide)

/-- Claim C5 counterexample: the claim says the `result` notification's
`code` field equals the status byte `0` received from the server.  In a
concrete run of a handler-less command completing with status `0`, the
event actually emitted is `emitResult res inf none` — the `code` field
is `undefined`, because `invokeHandler` calls the handler with only
`(result, info)` — and the event the claim predicts, with `code`
`some 0`, does not occur in the trace. -/
theorem default_handler_code_is_undefined :
    (dataEvent 12 (awaitingReply (strBytes "admin") (strBytes "admin")
        (strBytes "q") .default []) (wireReply (strBytes "res") (strBytes "inf") 0)).2 =
      [.emitResult (strBytes "res") (strBytes "inf") none] ∧
    Event.emitResult (strBytes "res") (strBytes "inf") (some 0) ∉
      (dataEvent 12 (awaitingReply (strBytes "admin") (strBytes "admin")
        (strBytes "q") .default []) (wireReply (strBytes "res") (strBytes "inf") 0)).2 := by
  refine ⟨by decide, by decide⟩

/-- Claim C5, amended: when `execute` is called with no handler and the
command completes with status byte `0`, a `result` notification is
emitted carrying the result string, the info string, and an *undefined*
`code` field (`none`) — not the received status byte — because
`invokeHandler` invokes the handler with only `(result, info)`. -/
theorem default_handler_emits_result (u pw q r i : List Nat) (hi : i ≠ []) :
    dataEvent 12 (awaitingReply u pw q .default []) (wireReply r i 0) =
      ({ awaitingReply u pw q .default [] with waiting := none, busy := false },
        [.emitResult r i none]) := by
  have hw : wireReply r i 0 =
      r.flatMap escapeByte ++ 0 :: (i.flatMap escapeByte ++ 0 :: [0]) := by
    simp [wireReply, encodeString, List.append_assoc]
  rw [hw]
  simp [dataEvent, awaitingReply, getStringFromBuffers, getStringFromBuffersAux,
    scanChunk_flatMap_escape, run, getByteFromBuffers, withEvent, handlerEvent, hi]

/-- Claim C5 amended-theorem witness: the concrete handler-less success
emits `result` with `code = none`. -/
theorem default_handler_emits_result_witness :
    dataEvent 12 (awaitingReply (strBytes "admin") (strBytes "admin")
        (strBytes "q") .default []) (wireReply (strBytes "res") (strBytes "inf") 0) =
      ({ awaitingReply (strBytes "admin") (strBytes "admin")
          (strBytes "q") .default [] with waiting := none, busy := false },
        [.emitResult (strBytes "res") (strBytes "inf") none]) :=
  default_handler_emits_result (strBytes "admin") (strBytes "admin")
    (strBytes "q") (strBytes "res") (strBytes "inf") (by decide)

/-- Claim C1: the spec says the reply `"<foo/>\0\0\x00"` delivered in
one fragment makes the success handler fire with `result = "<foo/>"`,
`info = ""` — an empty string being a valid decoded string even when
`readString` resolves synchronously from buffered data.  The code does
*not* do this: `handleData` delivers `"<foo/>"`, the chain's second
`readString` then synchronously decodes the empty info string, but the
`if (string)` truthiness test treats `""` as "not yet available", drops
the already-consumed empty string and re-registers the pending slot.
The evaluation below shows the full outcome: no events at all (the
handler is never invoked), the session left waiting for an info string
that was already consumed, and the status byte `0` stranded on the
buffer chain. -/
theorem readString_drops_sync_empty_string :
    dataEvent 20 c1Session c1Reply =
      ({ c1Session with
          dec := ⟨[], false, [[0]]⟩,
          waiting := some (.string, .execInfo c1Query (.user 0) (strBytes "<foo/>")) },
        []) := by
  decide

/-- Claim C3: `writeStrings` is claimed to escape `0x00`/`0xff` bytes
inside outgoing strings.  It does not: for the one-character string
`"\u0000"` (UTF-8 bytes `[0]`) the bytes written are `[0, 0]` — no
`0xff` escape byte anywhere — whereas the wire format's escaped
encoding of the same string is `[0xff, 0, 0]`; consequently the
receiver's decoder finds an empty string terminated by the first `0`,
cutting the string's wire boundary short. -/
theorem writeStrings_does_not_escape :
    writeStringsEncode [[0]] = [0, 0] ∧
    0xff ∉ writeStringsEncode [[0]] ∧
    encodeString [0] = [0xff, 0, 0] ∧
    writeStringsEncode [[0]] ≠ encodeString [0] ∧
    (getStringFromBuffers ⟨[], false, [writeStringsEncode [[0]]]⟩).1 = some [] := by
  decide

/-- Evaluation of one single-byte `data` event on an empty chain: the
bare escape byte only sets the flag. -/
theorem hdsp_escape_start (acc : List Nat) :
    handleDataStringPending ⟨acc, false, []⟩ [255] = (none, ⟨acc, true, []⟩) := rfl

/-- Evaluation of one single-byte `data` event in escape state: the
byte is appended verbatim, whatever it is. -/
theorem hdsp_escaped (acc : List Nat) (b : Nat) :
    handleDataStringPending ⟨acc, true, []⟩ [b] = (none, ⟨acc ++ [b], false, []⟩) := rfl

/-- Evaluation of one single-byte `data` event delivering the
terminator: the accumulated string is yielded. -/
theorem hdsp_term (acc : List Nat) :
    handleDataStringPending ⟨acc, false, []⟩ [0] = (some acc, ⟨[], false, []⟩) := rfl

/-- Evaluation of one single-byte `data` event on an ordinary byte:
appended verbatim. -/
theorem hdsp_plain (acc : List Nat) (b : Nat) (h0 : b ≠ 0) (h255 : b ≠ 255) :
    handleDataStringPending ⟨acc, false, []⟩ [b] = (none, ⟨acc ++ [b], false, []⟩) := by
  simp [handleDataStringPending, getStringFromBuffers, getStringFromBuffersAux,
    scanChunk, h0, h255]

/-- Unfolding `feedOneByOne` one event at a time when no string is
yielded yet. -/
theorem feed_cons_none (d : DecoderState) (b : Nat) (rest : List Nat)
    (d' : DecoderState) (h : handleDataStringPending d [b] = (none, d')) :
    feedOneByOne d (b :: rest) = feedOneByOne d' rest := by
  rw [feedOneByOne, h]

/-- Unfolding `feedOneByOne` at the event that yields a string. -/
theorem feed_cons_some (d : DecoderState) (b : Nat) (rest s : List Nat)
    (d' : DecoderState) (h : handleDataStringPending d [b] = (some s, d')) :
    feedOneByOne d (b :: rest) = (some s, d') := by
  rw [feedOneByOne, h]

/-- Delivering the escaped bytes of `s` one byte per event accumulates
exactly `s` behind any prior accumulator contents, and the trailing
terminator event yields the whole string. -/
theorem feedOneByOne_encoded (s : List Nat) : ∀ acc : List Nat,
    feedOneByOne ⟨acc, false, []⟩ (s.flatMap escapeByte ++ [0]) =
      (some (acc ++ s), ⟨[], false, []⟩) := by
  induction s with
  | nil =>
    intro acc
    rw [List.flatMap_nil, List.nil_append,
      feed_cons_some _ _ _ _ _ (hdsp_term acc)]
    simp
  | cons b s ih =>
    intro acc
    by_cases hb : b = 0 ∨ b = 255
    · have hesc : escapeByte b = [255, b] := by
        rcases hb with rfl | rfl <;> rfl
      rw [List.flatMap_cons, hesc]
      simp only [List.cons_append, List.nil_append, List.append_assoc]
      rw [feed_cons_none _ _ _ _ (hdsp_escape_start acc),
        feed_cons_none _ _ _ _ (hdsp_escaped acc b), ih (acc ++ [b])]
      simp
    · push_neg at hb
      rw [List.flatMap_cons]
      have hesc : escapeByte b = [b] := by
        simp [escapeByte, hb.1, hb.2]
      rw [hesc]
      simp only [List.cons_append, List.nil_append, List.append_assoc]
      rw [feed_cons_none _ _ _ _ (hdsp_plain acc b hb.1 hb.2), ih (acc ++ [b])]
      simp

/-- Claim C6: fragmentation invariance.  For every string `s` (as its
byte sequence), delivering the escaped, zero-terminated encoding of
`s` to a clean decoder one byte per `data` event — so every possible
byte boundary, including boundaries inside an escape pair, is a
fragment boundary — eventually yields exactly `s` to the pending
`readString`, leaving the decoder clean.  (UTF-8 decoding of the
accumulated bytes is deferred until the terminator, so boundaries
inside multi-byte UTF-8 sequences are covered by the byte-level
statement.) -/
theorem fragmentation_invariance (s : List Nat) :
    feedOneByOne ⟨[], false, []⟩ (encodeString s) = (some s, ⟨[], false, []⟩) := by
  have h := feedOneByOne_encoded s []
  simpa [encodeString] using h

/-- Claim C7: the digest written during the handshake (second string of
the `wrote` event produced by the nonce continuation of
`performHandshake`) is `hex(MD5(hex(MD5(password)) ++ nonce))` — `md5hex`
here is a full MD5 implementation checked against the RFC 1321 vectors
in `md5hex_vectors`.  The concrete conjuncts evaluate the handshake for
password `"admin"` and nonce `"abc123"`, whose digest is
`49e463405218e6b4ce6557cc9f7b8ca5`. -/
theorem handshake_digest_formula :
    (∀ (st : Session) (nonce : List Nat) (n : Nat),
      (run (n + 1) st (.invoke .handshakeNonce (.str nonce))).2.head? =
        some (.wrote [st.user, md5hex (md5hex st.password ++ nonce)])) ∧
    md5hex (md5hex (strBytes "admin") ++ strBytes "abc123") =
      strBytes "49e463405218e6b4ce6557cc9f7b8ca5" ∧
    (run 10 (initialSession (strBytes "admin") (strBytes "admin"))
        (.invoke .handshakeNonce (.str (strBytes "abc123")))).2 =
      [.wrote [strBytes "admin", strBytes "49e463405218e6b4ce6557cc9f7b8ca5"]] := by
  refine ⟨fun st nonce n => ?_, by decide, by decide⟩
  simp [run, withEvent]

/-- Claim C8: a byte read in escape state is appended to the
accumulator verbatim and clears the flag — for *every* byte value `b`,
`0x00` and `0xff` included — and this holds across fragment boundaries:
a fragment ending in the bare escape byte leaves `inEscape` set in the
session, and the next fragment's first byte is then appended verbatim
whatever it is. -/
theorem escaped_byte_verbatim :
    (∀ (acc : List Nat) (b : Nat) (rest : List Nat),
      scanChunk acc true (b :: rest) = scanChunk (acc ++ [b]) false rest) ∧
    (∀ (acc : List Nat) (b : Nat),
      handleDataStringPending ⟨acc, false, []⟩ [0xff] = (none, ⟨acc, true, []⟩) ∧
      handleDataStringPending ⟨acc, true, []⟩ [b] = (none, ⟨acc ++ [b], false, []⟩)) := by
  refine ⟨fun acc b rest => rfl, fun acc b => ⟨rfl, rfl⟩⟩

/-- Claim C9 counterexample: the spec sentence says an operation
invoked after transport closure "must fail, not hang".  Evaluating an
`execute` issued right after the `end` event on a fresh session shows
the code raises nothing and writes nothing: the event trace is empty
and the command is merely parked on the queue, which nothing will ever
drain on a closed transport. -/
theorem execute_after_close_is_silent :
    run 5 (endEvent (initialSession (strBytes "admin") (strBytes "admin")))
        (.execute (strBytes "xquery 1") .default) =
      ({ endEvent (initialSession (strBytes "admin") (strBytes "admin")) with
          queue := [(strBytes "xquery 1", .default)] }, []) := by
  decide

/-- Claim C9, amended: after the transport closes the session is
permanently marked busy, and an `execute` issued after closure is
silently enqueued — no bytes are sent and no notification of any kind
is raised (the call neither proceeds nor fails; it blocks
indefinitely, since only a queue drain could run the thunk and a
closed transport delivers no further events). -/
theorem execute_after_close_enqueues_silently :
    (∀ st : Session, endEvent st = { st with busy := true }) ∧
    (∀ (st : Session) (q : List Nat) (h : Handler) (n : Nat),
      run (n + 1) (endEvent st) (.execute q h) =
        ({ endEvent st with queue := (q, h) :: st.queue }, [])) := by
  refine ⟨fun st => rfl, fun st q h n => ?_⟩
  simp [run, endEvent]

/-- Claim C10: a `data` event arriving while no read is pending only
appends the chunk at the back of the buffer chain — no continuation
runs, no event is emitted, no other field changes (hence no byte is
dropped or reordered); and `getByteFromBuffers` consumes exactly the
head of the flattened chain, leaving the flattened tail. -/
theorem handleData_no_waiting_buffers :
    (∀ (st : Session) (data : List Nat) (n : Nat), st.waiting = none →
      dataEvent n st data =
        ({ st with dec := { st.dec with buffers := st.dec.buffers ++ [data] } }, [])) ∧
    (∀ (b : Nat) (rest : List Nat) (chunks : List (List Nat)),
      getByteFromBuffers ((b :: rest) :: chunks) =
        some (b, if rest = [] then chunks else rest :: chunks) ∧
      ((b :: rest) :: chunks).flatten =
        b :: (if rest = [] then chunks else rest :: chunks).flatten) := by
  constructor
  · intro st data n h
    simp [dataEvent, h]
  · intro b rest chunks
    refine ⟨rfl, ?_⟩
    cases rest <;> simp

/-- Claim C10 witness: a concrete `data` arrival on a session with an
empty pending slot, and a concrete byte consumption. -/
theorem handleData_no_waiting_buffers_witness :
    dataEvent 7 (idleSession (strBytes "admin") (strBytes "admin")) [1, 2] =
      ({ idleSession (strBytes "admin") (strBytes "admin") with
          dec := ⟨[], false, [[1, 2]]⟩ }, []) ∧
    getByteFromBuffers [[9, 8], [7]] = some (9, [[8], [7]]) := by
  constructor
  · have h := handleData_no_waiting_buffers.1
      (idleSession (strBytes "admin") (strBytes "admin")) [1, 2] 7 rfl
    simpa [idleSession] using h
  · have h := (handleData_no_waiting_buffers.2 9 [8] [[7]]).1
    simpa using h

end SimpleBasex
